import Mathlib

/-! Horizon `SendAction`: ledger block assembly and publishing.

A shallow embedding of `services/horizon/internal/actions_send.go`.

* Go machine integers (`int32`, `int64`, `uint`) are embedded as `Int`/`Nat`;
  the file performs no arithmetic on them, only copies and comparisons.
* A Go slice is a `Slice`, which keeps the difference between the `nil` slice
  and an empty, allocated one.
* A Go `map[K]V` is a `GoMap K V`, a finite partial function given by its lookup.
* Pointers stored in slices (`[]*operation`, `[]*transaction`) are embedded by
  the value they point to: every pointee is fully written before its address is
  stored and is never written afterwards.
* Collaborators that live outside this file (the operation type-name table, the
  amount formatter, the paging-token methods) are fields of `Env`.
-/

namespace Horizon

/-! ## Go runtime values -/

/-- Go slice: either the `nil` slice or an allocated slice with its elements. -/
inductive Slice (α : Type) where
  | nil : Slice α
  | mk (elems : List α) : Slice α
deriving DecidableEq, Repr

namespace Slice

/-- Elements of a slice, as `range` visits them. -/
def toList {α : Type} : Slice α → List α
  | nil => []
  | mk l => l

/-- Result of `make([]T, 0)`: allocated, no element. -/
def make0 {α : Type} : Slice α := mk []

/-- Result of `append(s, x)`: always an allocated slice. -/
def append {α : Type} (s : Slice α) (x : α) : Slice α := mk (s.toList ++ [x])

/-- Test `s == nil`. -/
def isNil {α : Type} : Slice α → Bool
  | nil => true
  | mk _ => false

end Slice

/-- Go `map[K]V`, given by its lookup function. -/
def GoMap (K V : Type) : Type := K → Option V

namespace GoMap

/-- Result of `make(map[K]V, 0)`. -/
def make {K V : Type} : GoMap K V := fun _ => none

/-- The two-valued index expression `v, ok := m[k]`, as an option. -/
def get? {K V : Type} (m : GoMap K V) (k : K) : Option V := m k

/-- The `ok` result of `_, ok := m[k]`. -/
def exist {K V : Type} (m : GoMap K V) (k : K) : Bool := (m k).isSome

/-- The index expression `m[k]`: the stored value or the zero value `zero`. -/
def index {K V : Type} (zero : V) (m : GoMap K V) (k : K) : V := (m k).getD zero

/-- The assignment `m[k] = v`. -/
def set {K V : Type} [DecidableEq K] (m : GoMap K V) (k : K) (v : V) : GoMap K V :=
  fun k' => if k' = k then some v else m k'

end GoMap

/-- The type `null.String`: a string with a validity flag. -/
structure NullString where
  Valid : Bool
  String : String
deriving DecidableEq, Repr

/-- The type `time.Time`, only ever copied here. -/
structure Time where
  unixNano : Int
deriving DecidableEq, Repr

/-- The verb `%d` of `fmt.Sprintf` on a signed integer. -/
def sprintfD (x : Int) : String := toString x

/-- The verb `%d` of `fmt.Sprintf` on an unsigned integer. -/
def sprintfU (x : Nat) : String := toString x

/-- Value of a list of decimal digit characters, most significant first, on top of `acc`. -/
def digitsValue (acc : Nat) (cs : List Char) : Nat :=
  cs.foldl (fun a c => 10 * a + (c.toNat - 48)) acc

/-! ## Loaded history records (the fields this file reads) -/

/-- Record `history.Ledger`. -/
structure LedgerRecord where
  ID : Int
  Sequence : Int
  LedgerHash : String
  PreviousLedgerHash : NullString
  TransactionCount : Int
  SuccessfulTransactionCount : Option Int
  FailedTransactionCount : Option Int
  OperationCount : Int
  ClosedAt : Time
  TotalCoins : Int
  FeePool : Int
  BaseFee : Int
  BaseReserve : Int
  MaxTxSetSize : Int
  ProtocolVersion : Int
  LedgerHeaderXDR : NullString
deriving DecidableEq, Repr

/-- Record `history.Transaction`. -/
structure TransactionRecord where
  ID : Int
  TransactionHash : String
  LedgerSequence : Int
  Account : String
  AccountSequence : String
  FeeCharged : Int
  OperationCount : Int
  TxEnvelope : String
  TxResult : String
  TxMeta : String
  TxFeeMeta : String
  MemoType : String
  SignatureString : String
deriving DecidableEq, Repr

/-- Record `history.Operation`; `Typ` is the Go field `Type`. -/
structure OperationRecord where
  ID : Int
  TransactionID : Int
  ApplicationOrder : Int
  Typ : Int
  DetailsString : NullString
  SourceAccount : String
deriving DecidableEq, Repr

/-! ## Assembled documents -/

/-- Struct `operation`; `Typ` is the Go field `Type`. -/
structure operation where
  OperationID : String
  TransactionID : String
  ApplicationOrder : Int
  Typ : String
  Detail : String
  SourceAccount : String
deriving DecidableEq, Repr

/-- Struct `transaction`. -/
structure transaction where
  ID : String
  PT : String
  Hash : String
  Ledger : Int
  Account : String
  AccountSequence : String
  FeePaid : Int
  OperationCount : Int
  EnvelopeXdr : String
  ResultXdr : String
  ResultMetaXdr : String
  FeeMetaXdr : String
  MemoType : String
  Signatures : String
  Operations : Slice operation
deriving DecidableEq, Repr

/-- Struct `ledgerInBlock`. -/
structure ledgerInBlock where
  ID : String
  PT : String
  Hash : String
  PrevHash : String
  Sequence : Int
  TransactionCount : Int
  SuccessfulTransactionCount : Int
  FailedTransactionCount : Option Int
  OperationCount : Int
  ClosedAt : Time
  TotalCoins : String
  FeePool : String
  BaseFee : Int
  BaseReserve : Int
  MaxTxSetSize : Int
  ProtocolVersion : Int
  HeaderXDR : String
  Transactions : Slice transaction
deriving DecidableEq, Repr

/-- Struct `BlockValue`. -/
structure BlockValue where
  Value : ledgerInBlock
deriving DecidableEq, Repr

/-- Struct `BlockData`. -/
structure BlockData where
  Records : Slice BlockValue
deriving DecidableEq, Repr

/-- Struct `Reply`. -/
structure Reply where
  Message : String
deriving DecidableEq, Repr

/-- Values of `action.Err`: the `problem.BeforeHistory` problem, or another error. -/
inductive Error where
  | BeforeHistory : Error
  | other (msg : String) : Error
deriving DecidableEq, Repr

/-- Collaborators defined outside `actions_send.go`. -/
structure Env where
  /-- Table `operations.TypeNames`. -/
  TypeNames : GoMap Int String
  /-- Function `amount.String`. -/
  amountString : Int → String
  /-- Method `PagingToken` of a ledger record. -/
  ledgerPagingToken : LedgerRecord → String
  /-- Method `PagingToken` of a transaction record. -/
  transactionPagingToken : TransactionRecord → String

/-- Struct `SendAction`, with the `Err` field of the embedded `Action`. -/
structure SendAction where
  Err : Option Error
  SequenceStart : Int
  SequenceEnd : Int
  SendKafka : String
  LedgerRecords : List LedgerRecord
  TransactionRecords : List TransactionRecord
  OperationRecords : List OperationRecord
  BlockRecords : BlockData
  KafkaReply : Reply
deriving DecidableEq, Repr

/-! ## `LoadBlockData` -/

/-- Lines 145-151: the `operation` built from one operation record. -/
def operationOf (env : Env) (operationRecord : OperationRecord) : operation :=
  { Typ := GoMap.index "" env.TypeNames operationRecord.Typ
    OperationID := sprintfD operationRecord.ID
    TransactionID := sprintfD operationRecord.TransactionID
    ApplicationOrder := operationRecord.ApplicationOrder
    Detail := operationRecord.DetailsString.String
    SourceAccount := operationRecord.SourceAccount }

/-- Lines 144-157: one iteration of the loop over the operation records. -/
def operationLoopBody (env : Env) (toMap : GoMap Int (Slice operation))
    (operationRecord : OperationRecord) : GoMap Int (Slice operation) :=
  let op := operationOf env operationRecord
  let toMap1 :=
    if !(toMap.exist operationRecord.TransactionID) then
      toMap.set operationRecord.TransactionID Slice.make0
    else toMap
  toMap1.set operationRecord.TransactionID
    (Slice.append (GoMap.index Slice.nil toMap1 operationRecord.TransactionID) op)

/-- Lines 160-179: the `transaction` built from one transaction record. -/
def transactionOf (env : Env) (toMap : GoMap Int (Slice operation))
    (transactionRecord : TransactionRecord) : transaction :=
  { ID := sprintfD transactionRecord.ID
    PT := env.transactionPagingToken transactionRecord
    Hash := transactionRecord.TransactionHash
    Ledger := transactionRecord.LedgerSequence
    Account := transactionRecord.Account
    AccountSequence := transactionRecord.AccountSequence
    FeePaid := transactionRecord.FeeCharged
    OperationCount := transactionRecord.OperationCount
    EnvelopeXdr := transactionRecord.TxEnvelope
    ResultXdr := transactionRecord.TxResult
    ResultMetaXdr := transactionRecord.TxMeta
    FeeMetaXdr := transactionRecord.TxFeeMeta
    MemoType := transactionRecord.MemoType
    Signatures := transactionRecord.SignatureString
    Operations :=
      if toMap.exist transactionRecord.ID then
        GoMap.index Slice.nil toMap transactionRecord.ID
      else Slice.make0 }

/-- Lines 159-185: one iteration of the loop over the transaction records. -/
def transactionLoopBody (env : Env) (toMap : GoMap Int (Slice operation))
    (ltMap : GoMap Int (Slice transaction)) (transactionRecord : TransactionRecord) :
    GoMap Int (Slice transaction) :=
  let tr := transactionOf env toMap transactionRecord
  let ltMap1 :=
    if !(ltMap.exist transactionRecord.LedgerSequence) then
      ltMap.set transactionRecord.LedgerSequence Slice.make0
    else ltMap
  ltMap1.set transactionRecord.LedgerSequence
    (Slice.append (GoMap.index Slice.nil ltMap1 transactionRecord.LedgerSequence) tr)

/-- Lines 188-218: the `ledgerInBlock` built from one ledger record. -/
def ledgerOf (env : Env) (ltMap : GoMap Int (Slice transaction)) (record : LedgerRecord) :
    ledgerInBlock :=
  { ID := sprintfD record.ID
    PT := env.ledgerPagingToken record
    Hash := record.LedgerHash
    PrevHash := record.PreviousLedgerHash.String
    Sequence := record.Sequence
    TransactionCount := record.TransactionCount
    SuccessfulTransactionCount :=
      match record.SuccessfulTransactionCount with
      | some n => n
      | none => record.TransactionCount
    FailedTransactionCount := record.FailedTransactionCount
    OperationCount := record.OperationCount
    ClosedAt := record.ClosedAt
    TotalCoins := env.amountString record.TotalCoins
    FeePool := env.amountString record.FeePool
    BaseFee := record.BaseFee
    BaseReserve := record.BaseReserve
    MaxTxSetSize := record.MaxTxSetSize
    ProtocolVersion := record.ProtocolVersion
    HeaderXDR := if record.LedgerHeaderXDR.Valid then record.LedgerHeaderXDR.String else ""
    Transactions :=
      if ltMap.exist record.Sequence then GoMap.index Slice.nil ltMap record.Sequence
      else Slice.make0 }

/-- Lines 187-220: one iteration of the loop over the ledger records. -/
def ledgerLoopBody (env : Env) (ltMap : GoMap Int (Slice transaction))
    (records : Slice BlockValue) (record : LedgerRecord) : Slice BlockValue :=
  Slice.append records { Value := ledgerOf env ltMap record }

/-- The map `toMap` once the loop of lines 144-157 has run. -/
def buildToMap (env : Env) (operationRecords : List OperationRecord) :
    GoMap Int (Slice operation) :=
  operationRecords.foldl (operationLoopBody env) GoMap.make

/-- The map `ltMap` once the loop of lines 159-185 has run. -/
def buildLtMap (env : Env) (toMap : GoMap Int (Slice operation))
    (transactionRecords : List TransactionRecord) : GoMap Int (Slice transaction) :=
  transactionRecords.foldl (transactionLoopBody env toMap) GoMap.make

/-- Method `SendAction.LoadBlockData` (lines 140-222). -/
def LoadBlockData (env : Env) (action : SendAction) : SendAction :=
  let toMap := buildToMap env action.OperationRecords
  let ltMap := buildLtMap env toMap action.TransactionRecords
  let records := action.LedgerRecords.foldl (ledgerLoopBody env ltMap) Slice.make0
  { action with BlockRecords := { Records := records } }

/-! ## The request pipeline -/

/-- Publish target read from `action.App.config`. -/
structure Config where
  KafkaProxyHost : String
  KafkaProxyPort : Nat
  KafkaTopic : String
deriving DecidableEq, Repr

/-- An `*http.Response` as far as this file uses it: the error that `ioutil.ReadAll`
returns on its body, if any. -/
structure Response where
  StatusCode : Int
  readAll : Option Error
deriving DecidableEq, Repr

/-- What the request, the history store, the process state and the network answer: the
helpers and libraries that `actions_send.go` calls and that are defined elsewhere. Helpers
of the embedded `Action` act on its `Err` field. -/
structure Externals where
  /-- Value `ledger.CurrentState().HistoryElder`. -/
  HistoryElder : Int
  /-- Step `action.EnsureHistoryFreshness`, as a transformer of `Err`. -/
  EnsureHistoryFreshness : Option Error → Option Error
  /-- Helper `action.GetInt32(name)`: the value returned and the new `Err`. -/
  GetInt32 : String → Option Error → Int × Option Error
  /-- Helper `action.GetString(name)`: the value returned and the new `Err`. -/
  GetString : String → Option Error → String × Option Error
  /-- Query `LedgerBySequenceBatch(&dest, start, end)`: the new `dest` and the error. -/
  LedgerBySequenceBatch : Int → Int → List LedgerRecord → List LedgerRecord × Option Error
  /-- Query `Transactions().ForLedgerBatch(start, end).Select(&dest)`. -/
  TransactionsForLedgerBatch :
    Int → Int → List TransactionRecord → List TransactionRecord × Option Error
  /-- Query `Operations().ForLedgerBatch(start, end).Select(&dest)`. -/
  OperationsForLedgerBatch :
    Int → Int → List OperationRecord → List OperationRecord × Option Error
  /-- Publish target `action.App.config`. -/
  config : Config
  /-- Function `json.Marshal` on the assembled records. -/
  Marshal : BlockData → String
  /-- Whether `http.NewRequest("POST", url, body)` returns a request (not `nil`). -/
  NewRequest : String → Bool
  /-- Call `client.Do(req)` for the given URL and body: the pair `resp, err`. -/
  clientDo : String → String → Option Response × Option Error

/-- Observable steps of a run, in the order they happen. -/
inductive Event where
  | loadLedgers : Event
  | loadTransactions : Event
  | loadOperations : Event
  | assemble : Event
  | post (url body : String) : Event
  | logInfo (msg : String) : Event
  | renderKafkaReply (reply : Reply) : Event
  | renderBlockRecords (records : BlockData) : Event
deriving DecidableEq, Repr

/-- A Go runtime panic. -/
inductive Panic where
  | nilPointerDereference : Panic
deriving DecidableEq, Repr

/-- The action together with the trace of what has been done so far. -/
structure Run where
  action : SendAction
  events : List Event
deriving DecidableEq, Repr

/-- The JSON object that a `Reply` encodes to (lines 90-92): one member, named by the
field tag `message`. -/
def Reply.members (r : Reply) : List (String × String) := [("message", r.Message)]

/-- Method `SendAction.loadParams` (lines 116-120). -/
def loadParams (ext : Externals) (action : SendAction) : SendAction :=
  let r1 := ext.GetInt32 "ledger_start" action.Err
  let r2 := ext.GetInt32 "ledger_end" r1.2
  let r3 := ext.GetString "send_kafka" r2.2
  { action with SequenceStart := r1.1, SequenceEnd := r2.1, SendKafka := r3.1, Err := r3.2 }

/-- Method `SendAction.verifyWithinHistory` (lines 134-138). -/
def verifyWithinHistory (HistoryElder : Int) (action : SendAction) : SendAction :=
  if action.SequenceStart < HistoryElder then
    { action with Err := some Error.BeforeHistory }
  else action

/-- Method `SendAction.LoadLedgerRecord` (lines 122-124). -/
def LoadLedgerRecord (ext : Externals) (s : Run) : Run :=
  let r := ext.LedgerBySequenceBatch s.action.SequenceStart s.action.SequenceEnd
    s.action.LedgerRecords
  { action := { s.action with LedgerRecords := r.1, Err := r.2 }
    events := s.events ++ [Event.loadLedgers] }

/-- Method `SendAction.LoadTransactionRecordByLedger` (lines 126-128). -/
def LoadTransactionRecordByLedger (ext : Externals) (s : Run) : Run :=
  let r := ext.TransactionsForLedgerBatch s.action.SequenceStart s.action.SequenceEnd
    s.action.TransactionRecords
  { action := { s.action with TransactionRecords := r.1, Err := r.2 }
    events := s.events ++ [Event.loadTransactions] }

/-- Method `SendAction.LoadOperationRecordByLedger` (lines 130-132). -/
def LoadOperationRecordByLedger (ext : Externals) (s : Run) : Run :=
  let r := ext.OperationsForLedgerBatch s.action.SequenceStart s.action.SequenceEnd
    s.action.OperationRecords
  { action := { s.action with OperationRecords := r.1, Err := r.2 }
    events := s.events ++ [Event.loadOperations] }

/-- The outbound URL of `SendDataToKafka` (lines 229-234). -/
def kafkaURL (config : Config) : String :=
  if config.KafkaProxyPort = 80 then
    "http://" ++ config.KafkaProxyHost ++ "/topics/" ++ config.KafkaTopic
  else
    "http://" ++ config.KafkaProxyHost ++ ":" ++ sprintfU config.KafkaProxyPort ++
      "/topics/" ++ config.KafkaTopic

/-- Method `SendAction.SendDataToKafka` (lines 224-253). The header writes of lines 236-237
dereference `req`, and the `defer` statement of line 240 evaluates `resp.Body`, which
dereferences `resp`. -/
def SendDataToKafka (ext : Externals) (s : Run) : Except Panic Run :=
  let sub := ext.Marshal s.action.BlockRecords
  let url := kafkaURL ext.config
  if !(ext.NewRequest url) then Except.error Panic.nilPointerDereference
  else
    let r := ext.clientDo url sub
    let events := s.events ++ [Event.post url sub]
    match r.1 with
    | none => Except.error Panic.nilPointerDereference
    | some resp =>
      match r.2 with
      | some err => Except.ok { action := { s.action with Err := some err }, events := events }
      | none =>
        match resp.readAll with
        | some err =>
          Except.ok { action := { s.action with Err := some err }, events := events }
        | none =>
          Except.ok
            { action := { s.action with KafkaReply := { Message := "success" } }
              events := events ++
                [Event.logInfo "Horizon send data into kafka successfully! "] }

/-- The closing step of `JSON` (lines 104-111). -/
def emit (ext : Externals) (s : Run) : Except Panic Run :=
  if s.action.SendKafka = "true" then
    match SendDataToKafka ext s with
    | Except.error p => Except.error p
    | Except.ok s1 =>
      Except.ok { s1 with events := s1.events ++ [Event.renderKafkaReply s1.action.KafkaReply] }
  else
    Except.ok { s with events := s.events ++ [Event.renderBlockRecords s.action.BlockRecords] }

/-- Modelled from the spec: the helper `Action.Do`, which is not in this file. "First error
encountered short-circuits all later steps": each step runs only while `Err` is unset. -/
def Do (steps : List (Run → Except Panic Run)) (s : Run) : Except Panic Run :=
  match steps with
  | [] => Except.ok s
  | f :: fs =>
    if s.action.Err.isSome then Except.ok s
    else
      match f s with
      | Except.error p => Except.error p
      | Except.ok s1 => Do fs s1

/-- The steps `JSON` hands to `Do` (lines 97-111), in order. -/
def JSONSteps (env : Env) (ext : Externals) : List (Run → Except Panic Run) :=
  [ fun s => Except.ok
      { s with action := { s.action with Err := ext.EnsureHistoryFreshness s.action.Err } },
    fun s => Except.ok { s with action := loadParams ext s.action },
    fun s => Except.ok { s with action := verifyWithinHistory ext.HistoryElder s.action },
    fun s => Except.ok (LoadLedgerRecord ext s),
    fun s => Except.ok (LoadTransactionRecordByLedger ext s),
    fun s => Except.ok (LoadOperationRecordByLedger ext s),
    fun s => Except.ok
      { action := LoadBlockData env s.action, events := s.events ++ [Event.assemble] },
    emit ext ]

/-- Method `SendAction.JSON` (lines 95-114): the run it leaves, whose `action.Err` it
returns. -/
def JSON (env : Env) (ext : Externals) (action : SendAction) : Except Panic Run :=
  Do (JSONSteps env ext) { action := action, events := [] }

/-! ## A sample request -/

/-- Sample collaborators: a two-entry type-name table and decimal formatters. -/
def sampleEnv : Env :=
  { TypeNames := fun k => if k = 0 then some "create_account" else if k = 1 then some "payment"
      else none
    amountString := fun x => sprintfD x
    ledgerPagingToken := fun l => sprintfD l.ID
    transactionPagingToken := fun t => sprintfD t.ID }

/-- Sample ledger record with the given id and sequence. -/
def sampleLedger (id seq : Int) (hash : String) : LedgerRecord :=
  { ID := id, Sequence := seq, LedgerHash := hash
    PreviousLedgerHash := { Valid := false, String := "" }
    TransactionCount := 2, SuccessfulTransactionCount := none, FailedTransactionCount := none
    OperationCount := 3, ClosedAt := { unixNano := 0 }, TotalCoins := 1000, FeePool := 10
    BaseFee := 100, BaseReserve := 5, MaxTxSetSize := 50, ProtocolVersion := 11
    LedgerHeaderXDR := { Valid := true, String := "AAAA" } }

/-- Sample transaction record with the given id, owning ledger and source account. -/
def sampleTransaction (id seq : Int) (account : String) : TransactionRecord :=
  { ID := id, TransactionHash := "h", LedgerSequence := seq, Account := account
    AccountSequence := "1", FeeCharged := 100, OperationCount := 1, TxEnvelope := ""
    TxResult := "", TxMeta := "", TxFeeMeta := "", MemoType := "none", SignatureString := "" }

/-- Sample operation record with the given id, owning transaction, type and source account. -/
def sampleOperation (id txid typ : Int) (source : String) : OperationRecord :=
  { ID := id, TransactionID := txid, ApplicationOrder := 1, Typ := typ
    DetailsString := { Valid := true, String := "" }, SourceAccount := source }

/-- Sample action: ledgers 7 and 8; transactions 70, 71 in ledger 7 and 80 in ledger 8;
operations 1 and 3 of transaction 70, operation 2 of transaction 80, and operation 4 whose
transaction 99 is not loaded. -/
def sampleAction : SendAction :=
  { Err := none, SequenceStart := 7, SequenceEnd := 8, SendKafka := ""
    LedgerRecords := [sampleLedger 700 7 "h7", sampleLedger 800 8 "h8"]
    TransactionRecords :=
      [sampleTransaction 70 7 "GA", sampleTransaction 80 8 "GB", sampleTransaction 71 7 "GC"]
    OperationRecords :=
      [sampleOperation 1 70 0 "GA", sampleOperation 2 80 1 "", sampleOperation 3 70 5 "GX",
       sampleOperation 4 99 1 "GA"]
    BlockRecords := { Records := Slice.nil }
    KafkaReply := { Message := "" } }

/-- Sample surroundings of a request: retained-history boundary 100, parameters
`ledger_start`, `ledger_end` and `send_kafka` as given, a store that answers with the
records of `sampleAction`, and an HTTP client that answers `clientDo`. -/
def sampleExternals (ledgerStart ledgerEnd : Int) (sendKafka : String)
    (clientDo : Option Response × Option Error) : Externals :=
  { HistoryElder := 100
    EnsureHistoryFreshness := fun err => err
    GetInt32 := fun name err =>
      match err with
      | some e => (0, some e)
      | none => (if name = "ledger_start" then ledgerStart else ledgerEnd, none)
    GetString := fun _ err =>
      match err with
      | some e => ("", some e)
      | none => (sendKafka, none)
    LedgerBySequenceBatch := fun _ _ _ => (sampleAction.LedgerRecords, none)
    TransactionsForLedgerBatch := fun _ _ _ => (sampleAction.TransactionRecords, none)
    OperationsForLedgerBatch := fun _ _ _ => (sampleAction.OperationRecords, none)
    config := { KafkaProxyHost := "proxy", KafkaProxyPort := 8082, KafkaTopic := "xlm" }
    Marshal := fun b => sprintfU b.Records.toList.length
    NewRequest := fun _ => true
    clientDo := fun _ _ => clientDo }

/-- A fresh action, as `JSON` receives it: nothing loaded, no error. -/
def freshAction : SendAction :=
  { Err := none, SequenceStart := 0, SequenceEnd := 0, SendKafka := ""
    LedgerRecords := [], TransactionRecords := [], OperationRecords := []
    BlockRecords := { Records := Slice.nil }, KafkaReply := { Message := "" } }

/-- The sample surroundings with `ledger_start` 50 under boundary 100, but with a history
that `EnsureHistoryFreshness` finds stale. -/
def staleExternals : Externals :=
  { sampleExternals 50 60 "" (none, none) with
    EnsureHistoryFreshness := fun _ => some (Error.other "stale_history") }

/-- The sample surroundings with `ledger_start` 50 under boundary 100, but with a
`ledger_end` that `GetInt32` cannot parse. -/
def badEndExternals : Externals :=
  { sampleExternals 50 60 "" (none, none) with
    GetInt32 := fun name err =>
      match err with
      | some e => (0, some e)
      | none =>
        if name = "ledger_start" then (50, none) else (0, some (Error.other "bad_request")) }

/-! ## Decimal rendering is injective -/

theorem digitChar_toNat (k : Nat) (hk : k < 10) : (Nat.digitChar k).toNat - 48 = k := by
  interval_cases k <;> rfl

theorem digitChar_ne_minus (k : Nat) (hk : k < 10) : Nat.digitChar k ≠ '-' := by
  interval_cases k <;> decide

theorem digitsValue_toDigitsCore (f : Nat) : ∀ (n : Nat) (ds : List Char), n < f →
    digitsValue 0 (Nat.toDigitsCore 10 f n ds) = digitsValue n ds := by
  induction f with
  | zero => intro n ds h; omega
  | succ f ih =>
    intro n ds h
    have hd := digitChar_toNat (n % 10) (Nat.mod_lt _ (by decide))
    unfold Nat.toDigitsCore
    by_cases h0 : n / 10 = 0
    · simp only [h0, if_true]
      simp only [digitsValue, List.foldl_cons, hd]
      congr 1
      omega
    · simp only [h0, if_false]
      rw [ih (n / 10) _ (by omega)]
      simp only [digitsValue, List.foldl_cons, hd]
      congr 1
      omega

theorem toDigitsCore_head (f : Nat) : ∀ (n : Nat) (ds : List Char), n < f →
    (Nat.toDigitsCore 10 f n ds).head? ≠ some '-' := by
  induction f with
  | zero => intro n ds h; omega
  | succ f ih =>
    intro n ds h
    have hd := digitChar_ne_minus (n % 10) (Nat.mod_lt _ (by decide))
    unfold Nat.toDigitsCore
    by_cases h0 : n / 10 = 0
    · simp only [h0, if_true, List.head?_cons]
      intro hc
      exact hd (Option.some.inj hc)
    · simp only [h0, if_false]
      exact ih (n / 10) _ (by omega)

theorem natRepr_injective : Function.Injective Nat.repr := by
  intro a b h
  have h1 : Nat.toDigits 10 a = Nat.toDigits 10 b := by
    have := congrArg String.data h
    simpa [Nat.repr] using this
  have ha := digitsValue_toDigitsCore (a + 1) a [] (by omega)
  have hb := digitsValue_toDigitsCore (b + 1) b [] (by omega)
  unfold Nat.toDigits at h1
  rw [h1, hb] at ha
  simpa [digitsValue] using ha.symm

theorem natRepr_head (a : Nat) : (Nat.repr a).data.head? ≠ some '-' := by
  simpa [Nat.repr, Nat.toDigits] using toDigitsCore_head (a + 1) a [] (by omega)

/-- Two 64-bit identifiers with the same `%d` rendering are equal. -/
theorem sprintfD_injective : Function.Injective sprintfD := by
  intro a b h
  unfold sprintfD at h
  cases a with
  | ofNat m =>
    cases b with
    | ofNat n =>
      have : Nat.repr m = Nat.repr n := h
      rw [natRepr_injective this]
    | negSucc n =>
      exfalso
      have h2 : Nat.repr m = "-" ++ Nat.repr (n + 1) := h
      have := natRepr_head m
      rw [h2] at this
      simp at this
  | negSucc m =>
    cases b with
    | ofNat n =>
      exfalso
      have h2 : "-" ++ Nat.repr (m + 1) = Nat.repr n := h
      have := natRepr_head n
      rw [← h2] at this
      simp at this
    | negSucc n =>
      have h2 : "-" ++ Nat.repr (m + 1) = "-" ++ Nat.repr (n + 1) := h
      have h3 : Nat.repr (m + 1) = Nat.repr (n + 1) := by
        have := congrArg String.data h2
        simp only [String.data_append] at this
        exact String.ext (List.append_cancel_left this)
      have := natRepr_injective h3
      have : m = n := by omega
      rw [this]

/-! ## Decimal rendering of a port -/

theorem digitChar_isDigit (k : Nat) (hk : k < 10) : (Nat.digitChar k).isDigit = true := by
  interval_cases k <;> rfl

theorem digitChar_eq_zero (k : Nat) (hk : k < 10) (h : Nat.digitChar k = '0') : k = 0 := by
  interval_cases k
  · rfl
  all_goals exact absurd h (by decide)

theorem toDigitsCore_ne_nil_of_ne_nil (f : Nat) : ∀ (n : Nat) (ds : List Char), ds ≠ [] →
    Nat.toDigitsCore 10 f n ds ≠ [] := by
  induction f with
  | zero => intro n ds h; simpa [Nat.toDigitsCore] using h
  | succ f ih =>
    intro n ds _
    unfold Nat.toDigitsCore
    by_cases h0 : n / 10 = 0
    · simp [h0]
    · simp only [h0, if_false]
      exact ih _ _ (List.cons_ne_nil _ _)

theorem toDigitsCore_isDigit (f : Nat) : ∀ (n : Nat) (ds : List Char),
    (∀ c ∈ ds, c.isDigit = true) → ∀ c ∈ Nat.toDigitsCore 10 f n ds, c.isDigit = true := by
  induction f with
  | zero => intro n ds h; simpa [Nat.toDigitsCore] using h
  | succ f ih =>
    intro n ds h
    have hd := digitChar_isDigit (n % 10) (Nat.mod_lt _ (by decide))
    have hcons : ∀ c ∈ Nat.digitChar (n % 10) :: ds, c.isDigit = true := by
      intro c hc
      rcases List.mem_cons.mp hc with rfl | hc
      · exact hd
      · exact h c hc
    unfold Nat.toDigitsCore
    by_cases h0 : n / 10 = 0
    · simp only [h0, if_true]
      exact hcons
    · simp only [h0, if_false]
      exact ih _ _ hcons

theorem toDigitsCore_head_zero (f : Nat) : ∀ (n : Nat) (ds : List Char), n < f →
    (Nat.toDigitsCore 10 f n ds).head? = some '0' → n = 0 := by
  induction f with
  | zero => intro n ds h; omega
  | succ f ih =>
    intro n ds h
    unfold Nat.toDigitsCore
    by_cases h0 : n / 10 = 0
    · simp only [h0, if_true, List.head?_cons]
      intro hc
      have := digitChar_eq_zero (n % 10) (Nat.mod_lt _ (by decide)) (Option.some.inj hc)
      omega
    · simp only [h0, if_false]
      intro hc
      exact absurd (ih (n / 10) _ (by omega) hc) h0

/-- The `%d` rendering of an unsigned integer is its decimal numeral: a non-empty string of
the digits `0` to `9`, of value the integer, with a leading `0` only for zero. -/
theorem sprintfU_decimal (x : Nat) :
    ∃ digits : List Char, sprintfU x = String.mk digits ∧ digits ≠ [] ∧
      (∀ c ∈ digits, c.isDigit = true) ∧ digitsValue 0 digits = x ∧
      (digits.head? = some '0' → x = 0) := by
  refine ⟨Nat.toDigits 10 x, rfl, ?_, ?_, ?_, ?_⟩
  · unfold Nat.toDigits Nat.toDigitsCore
    by_cases h0 : x / 10 = 0
    · simp [h0]
    · simp only [h0, if_false]
      exact toDigitsCore_ne_nil_of_ne_nil _ _ _ (List.cons_ne_nil _ _)
  · exact toDigitsCore_isDigit _ _ _ (by simp)
  · have h := digitsValue_toDigitsCore (x + 1) x [] (by omega)
    simpa [Nat.toDigits, digitsValue] using h
  · exact toDigitsCore_head_zero (x + 1) x [] (by omega)

/-! ## Grouping by key -/

/-- A loop that appends each record's value to the slice stored under the record's key
leaves, under every key, the values of the records with that key, in iteration order. -/
theorem foldl_group {R V : Type} (key : R → Int) (val : R → V)
    (f : GoMap Int (Slice V) → R → GoMap Int (Slice V))
    (hf : ∀ m r k, f m r k =
      if k = key r then some (Slice.mk (((m k).getD Slice.nil).toList ++ [val r])) else m k) :
    ∀ (rs : List R) (m : GoMap Int (Slice V)) (k : Int),
      (rs.foldl f m) k =
        if (rs.filter (fun r => decide (key r = k))).isEmpty then m k
        else some (Slice.mk (((m k).getD Slice.nil).toList ++
          (rs.filter (fun r => decide (key r = k))).map val)) := by
  intro rs
  induction rs with
  | nil => intro m k; simp
  | cons r rs ih =>
    intro m k
    rw [List.foldl_cons, ih (f m r) k, hf m r k]
    by_cases hk : key r = k
    · have hk2 : k = key r := hk.symm
      by_cases he : rs.filter (fun r => decide (key r = k)) = []
      · simp [List.filter_cons, hk, he, Slice.toList]
      · simp [List.filter_cons, hk, he, Slice.toList]
    · have hk2 : ¬ k = key r := fun h => hk h.symm
      simp [List.filter_cons, hk, hk2]

theorem operationLoopBody_apply (env : Env) (m : GoMap Int (Slice operation))
    (r : OperationRecord) (k : Int) :
    operationLoopBody env m r k =
      if k = r.TransactionID then
        some (Slice.mk (((m k).getD Slice.nil).toList ++ [operationOf env r]))
      else m k := by
  unfold operationLoopBody
  by_cases hk : k = r.TransactionID
  · subst hk
    cases hm : m r.TransactionID <;>
      simp [GoMap.set, GoMap.exist, GoMap.index, Slice.append, Slice.make0, Slice.toList, hm]
  · by_cases he : m.exist r.TransactionID <;> simp [GoMap.set, hk, he]

theorem transactionLoopBody_apply (env : Env) (toMap : GoMap Int (Slice operation))
    (m : GoMap Int (Slice transaction)) (r : TransactionRecord) (k : Int) :
    transactionLoopBody env toMap m r k =
      if k = r.LedgerSequence then
        some (Slice.mk (((m k).getD Slice.nil).toList ++ [transactionOf env toMap r]))
      else m k := by
  unfold transactionLoopBody
  by_cases hk : k = r.LedgerSequence
  · subst hk
    cases hm : m r.LedgerSequence <;>
      simp [GoMap.set, GoMap.exist, GoMap.index, Slice.append, Slice.make0, Slice.toList, hm]
  · by_cases he : m.exist r.LedgerSequence <;> simp [GoMap.set, hk, he]

/-- Content of `toMap` after the operation loop. -/
theorem buildToMap_apply (env : Env) (os : List OperationRecord) (k : Int) :
    buildToMap env os k =
      if (os.filter (fun o => decide (o.TransactionID = k))).isEmpty then none
      else some (Slice.mk ((os.filter (fun o => decide (o.TransactionID = k))).map
        (operationOf env))) := by
  unfold buildToMap
  rw [foldl_group (fun o => o.TransactionID) (operationOf env) (operationLoopBody env)
    (operationLoopBody_apply env) os GoMap.make k]
  simp [GoMap.make, Slice.toList]

/-- Content of `ltMap` after the transaction loop. -/
theorem buildLtMap_apply (env : Env) (toMap : GoMap Int (Slice operation))
    (ts : List TransactionRecord) (k : Int) :
    buildLtMap env toMap ts k =
      if (ts.filter (fun t => decide (t.LedgerSequence = k))).isEmpty then none
      else some (Slice.mk ((ts.filter (fun t => decide (t.LedgerSequence = k))).map
        (transactionOf env toMap))) := by
  unfold buildLtMap
  rw [foldl_group (fun t => t.LedgerSequence) (transactionOf env toMap)
    (transactionLoopBody env toMap) (transactionLoopBody_apply env toMap) ts GoMap.make k]
  simp [GoMap.make, Slice.toList]

/-- Operations attached to the transaction built from record `r`. -/
theorem transactionOf_Operations (env : Env) (os : List OperationRecord)
    (r : TransactionRecord) :
    (transactionOf env (buildToMap env os) r).Operations =
      Slice.mk ((os.filter (fun o => decide (o.TransactionID = r.ID))).map (operationOf env)) := by
  simp only [transactionOf, GoMap.exist, GoMap.index, buildToMap_apply]
  by_cases he : os.filter (fun o => decide (o.TransactionID = r.ID)) = []
  · simp [he, Slice.make0]
  · simp [he]

/-- Transactions attached to the document built from ledger record `l`. -/
theorem ledgerOf_Transactions (env : Env) (toMap : GoMap Int (Slice operation))
    (ts : List TransactionRecord) (l : LedgerRecord) :
    (ledgerOf env (buildLtMap env toMap ts) l).Transactions =
      Slice.mk ((ts.filter (fun t => decide (t.LedgerSequence = l.Sequence))).map
        (transactionOf env toMap)) := by
  simp only [ledgerOf, GoMap.exist, GoMap.index, buildLtMap_apply]
  by_cases he : ts.filter (fun t => decide (t.LedgerSequence = l.Sequence)) = []
  · simp [he, Slice.make0]
  · simp [he]

theorem foldl_ledgerLoopBody (env : Env) (ltMap : GoMap Int (Slice transaction))
    (ls : List LedgerRecord) (acc : Slice BlockValue) :
    ls.foldl (ledgerLoopBody env ltMap) acc =
      if ls = [] then acc
      else Slice.mk (acc.toList ++ ls.map (fun l => BlockValue.mk (ledgerOf env ltMap l))) := by
  induction ls generalizing acc with
  | nil => simp
  | cons l ls ih =>
    rw [List.foldl_cons, ih]
    by_cases he : ls = []
    · simp [he, ledgerLoopBody, Slice.append]
    · simp [he, ledgerLoopBody, Slice.append, Slice.toList]

/-- The assembled collection: one document per ledger record, in load order. -/
theorem LoadBlockData_Records (env : Env) (action : SendAction) :
    (LoadBlockData env action).BlockRecords.Records =
      Slice.mk (action.LedgerRecords.map (fun l => BlockValue.mk (ledgerOf env
        (buildLtMap env (buildToMap env action.OperationRecords) action.TransactionRecords)
        l))) := by
  simp only [LoadBlockData, foldl_ledgerLoopBody]
  by_cases he : action.LedgerRecords = []
  · simp [he, Slice.make0]
  · simp [he, Slice.make0, Slice.toList]

/-- Every assembled transaction comes from a loaded transaction record of the document's
ledger. -/
theorem mem_Transactions (env : Env) (action : SendAction) (d : BlockValue)
    (hd : d ∈ (LoadBlockData env action).BlockRecords.Records.toList)
    (t : transaction) (ht : t ∈ d.Value.Transactions.toList) :
    ∃ r ∈ action.TransactionRecords, r.LedgerSequence = d.Value.Sequence ∧
      t = transactionOf env (buildToMap env action.OperationRecords) r := by
  rw [LoadBlockData_Records] at hd
  simp only [Slice.toList, List.mem_map] at hd
  obtain ⟨l, _, rfl⟩ := hd
  rw [ledgerOf_Transactions] at ht
  simp only [Slice.toList, List.mem_map, List.mem_filter, decide_eq_true_eq] at ht
  obtain ⟨r, ⟨hr, hseq⟩, rfl⟩ := ht
  exact ⟨r, hr, hseq, rfl⟩

/-! ## Claims on `LoadBlockData` -/

/-- C1: every assembled transaction `t` of the output renders the id of a loaded transaction
record, and for the identifier `id` that `t.ID` renders, the operations of `t` are the loaded
operation records whose `TransactionID` is `id`, each converted by `operationOf`, in load
order (an allocated empty slice when there is none). -/
theorem C1_operations_of_transaction (env : Env) (action : SendAction) (d : BlockValue)
    (hd : d ∈ (LoadBlockData env action).BlockRecords.Records.toList)
    (t : transaction) (ht : t ∈ d.Value.Transactions.toList) :
    (∃ r ∈ action.TransactionRecords, t.ID = sprintfD r.ID) ∧
    ∀ id : Int, t.ID = sprintfD id →
      t.Operations = Slice.mk ((action.OperationRecords.filter
        (fun o => decide (o.TransactionID = id))).map (operationOf env)) := by
  obtain ⟨r, hr, _, rfl⟩ := mem_Transactions env action d hd t ht
  refine ⟨⟨r, hr, rfl⟩, ?_⟩
  intro id hid
  have hrid : r.ID = id := sprintfD_injective hid
  rw [transactionOf_Operations, hrid]

/-- C1 on the sample action: transaction 70 of ledger 7 carries operations 1 and 3. -/
theorem C1_operations_of_transaction_witness :
    (∃ r ∈ sampleAction.TransactionRecords,
      (transactionOf sampleEnv (buildToMap sampleEnv sampleAction.OperationRecords)
        (sampleTransaction 70 7 "GA")).ID = sprintfD r.ID) ∧
    ∀ id : Int,
      (transactionOf sampleEnv (buildToMap sampleEnv sampleAction.OperationRecords)
        (sampleTransaction 70 7 "GA")).ID = sprintfD id →
      (transactionOf sampleEnv (buildToMap sampleEnv sampleAction.OperationRecords)
        (sampleTransaction 70 7 "GA")).Operations =
        Slice.mk ((sampleAction.OperationRecords.filter
          (fun o => decide (o.TransactionID = id))).map (operationOf sampleEnv)) :=
  C1_operations_of_transaction sampleEnv sampleAction
    (BlockValue.mk (ledgerOf sampleEnv (buildLtMap sampleEnv
      (buildToMap sampleEnv sampleAction.OperationRecords) sampleAction.TransactionRecords)
      (sampleLedger 700 7 "h7")))
    (by decide)
    (transactionOf sampleEnv (buildToMap sampleEnv sampleAction.OperationRecords)
      (sampleTransaction 70 7 "GA"))
    (by decide)

/-- C2: the transactions of every assembled ledger document `d` are the loaded transaction
records whose `LedgerSequence` is `d`'s sequence, each converted by `transactionOf`, in load
order (an allocated empty slice when there is none). -/
theorem C2_transactions_of_ledger (env : Env) (action : SendAction) (d : BlockValue)
    (hd : d ∈ (LoadBlockData env action).BlockRecords.Records.toList) :
    d.Value.Transactions = Slice.mk ((action.TransactionRecords.filter
      (fun t => decide (t.LedgerSequence = d.Value.Sequence))).map
        (transactionOf env (buildToMap env action.OperationRecords))) := by
  rw [LoadBlockData_Records] at hd
  simp only [Slice.toList, List.mem_map] at hd
  obtain ⟨l, _, rfl⟩ := hd
  rw [ledgerOf_Transactions]
  rfl

/-- C2 on the sample action: ledger 7 carries transactions 70 and 71, in load order. -/
theorem C2_transactions_of_ledger_witness :
    (BlockValue.mk (ledgerOf sampleEnv (buildLtMap sampleEnv
      (buildToMap sampleEnv sampleAction.OperationRecords) sampleAction.TransactionRecords)
      (sampleLedger 700 7 "h7"))).Value.Transactions =
    Slice.mk ((sampleAction.TransactionRecords.filter
      (fun t => decide (t.LedgerSequence = (BlockValue.mk (ledgerOf sampleEnv (buildLtMap
        sampleEnv (buildToMap sampleEnv sampleAction.OperationRecords)
        sampleAction.TransactionRecords) (sampleLedger 700 7 "h7"))).Value.Sequence))).map
        (transactionOf sampleEnv (buildToMap sampleEnv sampleAction.OperationRecords))) :=
  C2_transactions_of_ledger sampleEnv sampleAction
    (BlockValue.mk (ledgerOf sampleEnv (buildLtMap sampleEnv
      (buildToMap sampleEnv sampleAction.OperationRecords) sampleAction.TransactionRecords)
      (sampleLedger 700 7 "h7")))
    (by decide)

/-- C3: `BlockRecords.Records` has one entry per loaded ledger record, and the entry at
every index has the sequence and the hash of the ledger record at that index, whatever the
transaction and operation records are. -/
theorem C3_one_document_per_ledger (env : Env) (action : SendAction) :
    (LoadBlockData env action).BlockRecords.Records.toList.length =
      action.LedgerRecords.length ∧
    ∀ i : Nat,
      ((LoadBlockData env action).BlockRecords.Records.toList[i]?).map
          (fun d => (d.Value.Sequence, d.Value.Hash)) =
        (action.LedgerRecords[i]?).map (fun l => (l.Sequence, l.LedgerHash)) := by
  rw [LoadBlockData_Records]
  refine ⟨by simp [Slice.toList], ?_⟩
  intro i
  simp only [Slice.toList, List.getElem?_map, Option.map_map]
  rfl

/-- C4, refuted as stated: in the sample action operation 2 has no source account of its
own and its owning transaction 80, of source account `GB`, is loaded; the assembled
operation still has the empty source account. -/
theorem C4_source_account_not_defaulted :
    sampleOperation 2 80 1 "" ∈ sampleAction.OperationRecords ∧
    (sampleOperation 2 80 1 "").SourceAccount = "" ∧
    sampleTransaction 80 8 "GB" ∈ sampleAction.TransactionRecords ∧
    (sampleOperation 2 80 1 "").TransactionID = (sampleTransaction 80 8 "GB").ID ∧
    (LoadBlockData sampleEnv sampleAction).BlockRecords.Records.toList.map
      (fun d => d.Value.Transactions.toList.map (fun t => (t.ID, t.Account,
        t.Operations.toList.map (fun o => (o.OperationID, o.SourceAccount))))) =
      [[("70", "GA", [("1", "GA"), ("3", "GX")]), ("71", "GC", [])],
       [("80", "GB", [("2", "")])]] ∧
    ¬ ("" = (transactionOf sampleEnv (buildToMap sampleEnv sampleAction.OperationRecords)
        (sampleTransaction 80 8 "GB")).Account) := by
  decide

/-- C4, amended: for every loaded operation record `o` whose owning transaction record `r`
is loaded, the operation assembled from `o` is attached to the transaction assembled from
`r`, and its source account is the record's own `SourceAccount` (so the empty string when
the record has none), whatever the source account of `r` is. -/
theorem C4_source_account_copied (env : Env) (action : SendAction)
    (o : OperationRecord) (ho : o ∈ action.OperationRecords)
    (r : TransactionRecord) (hr : r ∈ action.TransactionRecords)
    (hor : o.TransactionID = r.ID) :
    (∀ d ∈ (LoadBlockData env action).BlockRecords.Records.toList,
      d.Value.Sequence = r.LedgerSequence →
      transactionOf env (buildToMap env action.OperationRecords) r ∈
        d.Value.Transactions.toList) ∧
    operationOf env o ∈
      (transactionOf env (buildToMap env action.OperationRecords) r).Operations.toList ∧
    (operationOf env o).SourceAccount = o.SourceAccount ∧
    ∀ account : String,
      (transactionOf env (buildToMap env action.OperationRecords)
        { r with Account := account }).Operations =
      (transactionOf env (buildToMap env action.OperationRecords) r).Operations := by
  refine ⟨?_, ?_, rfl, fun _ => rfl⟩
  · intro d hd hseq
    rw [LoadBlockData_Records] at hd
    simp only [Slice.toList, List.mem_map] at hd
    obtain ⟨l, _, rfl⟩ := hd
    rw [ledgerOf_Transactions]
    simp only [Slice.toList, List.mem_map, List.mem_filter, decide_eq_true_eq]
    exact ⟨r, ⟨hr, hseq.symm⟩, rfl⟩
  · rw [transactionOf_Operations]
    simp only [Slice.toList, List.mem_map, List.mem_filter, decide_eq_true_eq]
    exact ⟨o, ⟨ho, hor⟩, rfl⟩

/-- C4 amended, on the sample action: operation 2 under transaction 80. -/
theorem C4_source_account_copied_witness :
    (∀ d ∈ (LoadBlockData sampleEnv sampleAction).BlockRecords.Records.toList,
      d.Value.Sequence = (sampleTransaction 80 8 "GB").LedgerSequence →
      transactionOf sampleEnv (buildToMap sampleEnv sampleAction.OperationRecords)
        (sampleTransaction 80 8 "GB") ∈ d.Value.Transactions.toList) ∧
    operationOf sampleEnv (sampleOperation 2 80 1 "") ∈
      (transactionOf sampleEnv (buildToMap sampleEnv sampleAction.OperationRecords)
        (sampleTransaction 80 8 "GB")).Operations.toList ∧
    (operationOf sampleEnv (sampleOperation 2 80 1 "")).SourceAccount =
      (sampleOperation 2 80 1 "").SourceAccount ∧
    ∀ account : String,
      (transactionOf sampleEnv (buildToMap sampleEnv sampleAction.OperationRecords)
        { sampleTransaction 80 8 "GB" with Account := account }).Operations =
      (transactionOf sampleEnv (buildToMap sampleEnv sampleAction.OperationRecords)
        (sampleTransaction 80 8 "GB")).Operations :=
  C4_source_account_copied sampleEnv sampleAction (sampleOperation 2 80 1 "") (by decide)
    (sampleTransaction 80 8 "GB") (by decide) (by decide)

/-! ## Claims on the request pipeline -/

/-- C5: after `verifyWithinHistory` the error is `BeforeHistory` exactly when
`SequenceStart < HistoryElder` or the error already was `BeforeHistory`; when
`SequenceStart < HistoryElder` the step writes `BeforeHistory` and nothing else; otherwise
it changes nothing at all; and the step commutes with any change of `SequenceEnd`. -/
theorem C5_verifyWithinHistory (HistoryElder : Int) (action : SendAction) :
    ((verifyWithinHistory HistoryElder action).Err = some Error.BeforeHistory ↔
      (action.SequenceStart < HistoryElder ∨ action.Err = some Error.BeforeHistory)) ∧
    (action.SequenceStart < HistoryElder →
      verifyWithinHistory HistoryElder action =
        { action with Err := some Error.BeforeHistory }) ∧
    (HistoryElder ≤ action.SequenceStart →
      verifyWithinHistory HistoryElder action = action) ∧
    ∀ sequenceEnd : Int,
      verifyWithinHistory HistoryElder { action with SequenceEnd := sequenceEnd } =
        { verifyWithinHistory HistoryElder action with SequenceEnd := sequenceEnd } := by
  unfold verifyWithinHistory
  by_cases h : action.SequenceStart < HistoryElder
  · simp [h]
  · have h2 : HistoryElder ≤ action.SequenceStart := not_lt.mp h
    simp [h, h2]

/-- C6, refuted as stated: with `ledger_start` 50 under boundary 100, `JSON` ends with the
error of a stale history, or of a `ledger_end` that does not parse, and not with
`BeforeHistory`. -/
theorem C6_earlier_error_preempts :
    ((staleExternals.GetInt32 "ledger_start" none).1 = 50 ∧ staleExternals.HistoryElder = 100 ∧
      JSON sampleEnv staleExternals freshAction =
        Except.ok { action := { freshAction with Err := some (Error.other "stale_history") }
                    events := [] }) ∧
    ((badEndExternals.GetInt32 "ledger_start" none).1 = 50 ∧
      badEndExternals.HistoryElder = 100 ∧
      JSON sampleEnv badEndExternals freshAction =
        Except.ok { action := { freshAction with
                      SequenceStart := 50, Err := some (Error.other "bad_request") }
                    events := [] }) ∧
    Error.other "stale_history" ≠ Error.BeforeHistory ∧
    Error.other "bad_request" ≠ Error.BeforeHistory :=
  ⟨⟨rfl, rfl, rfl⟩, ⟨rfl, rfl, rfl⟩, by decide, by decide⟩

/-- What `JSON` leaves when the request's `ledger_start` precedes the boundary: the first
error met, on the action as it was when that error was set, and an empty trace. -/
theorem JSON_of_start_before_history (env : Env) (ext : Externals) (action : SendAction)
    (hstart : (ext.GetInt32 "ledger_start" none).1 < ext.HistoryElder) :
    JSON env ext action =
      Except.ok
        { action :=
            if action.Err.isSome then action
            else if (ext.EnsureHistoryFreshness none).isSome then
              { action with Err := ext.EnsureHistoryFreshness none }
            else if (loadParams ext action).Err.isSome then loadParams ext action
            else { loadParams ext action with Err := some Error.BeforeHistory }
          events := [] } := by
  cases action with
  | mk Err SequenceStart SequenceEnd SendKafka LedgerRecords TransactionRecords
      OperationRecords BlockRecords KafkaReply =>
    cases Err with
    | some e => simp only [JSON, JSONSteps, Do, Option.isSome_some, if_true]
    | none =>
      cases hf : ext.EnsureHistoryFreshness none with
      | some e =>
        simp only [JSON, JSONSteps, Do, hf, Option.isSome_some, Option.isSome_none,
          Bool.false_eq_true, if_false, if_true]
      | none =>
        have hs : (loadParams ext
            { Err := none, SequenceStart := SequenceStart, SequenceEnd := SequenceEnd,
              SendKafka := SendKafka, LedgerRecords := LedgerRecords,
              TransactionRecords := TransactionRecords, OperationRecords := OperationRecords,
              BlockRecords := BlockRecords, KafkaReply := KafkaReply }).SequenceStart <
            ext.HistoryElder := hstart
        cases hp : (loadParams ext
            { Err := none, SequenceStart := SequenceStart, SequenceEnd := SequenceEnd,
              SendKafka := SendKafka, LedgerRecords := LedgerRecords,
              TransactionRecords := TransactionRecords, OperationRecords := OperationRecords,
              BlockRecords := BlockRecords, KafkaReply := KafkaReply }).Err with
        | some e =>
          simp only [JSON, JSONSteps, Do, hf, hp, Option.isSome_some, Option.isSome_none,
            Bool.false_eq_true, if_false, if_true]
        | none =>
          simp only [JSON, JSONSteps, Do, hf, hp, Option.isSome_some, Option.isSome_none,
            Bool.false_eq_true, if_false, if_true, verifyWithinHistory, hs]

/-- C6, amended: when the request's `ledger_start` precedes the retained-history boundary,
`JSON` ends without panic, with an error and with an empty trace (no load, no assembly, no
publish, no rendering), the loaded collections, `BlockRecords` and `KafkaReply` as they
were. The error is `BeforeHistory` when the action starts without error and
`EnsureHistoryFreshness` and `loadParams` set none; otherwise it is the first error met:
the one the action started with, else the one of `EnsureHistoryFreshness`, else the one of
`loadParams`. -/
theorem C6_before_history_short_circuits (env : Env) (ext : Externals) (action : SendAction)
    (hstart : (ext.GetInt32 "ledger_start" none).1 < ext.HistoryElder) :
    (∃ s, JSON env ext action = Except.ok s ∧ s.events = [] ∧ s.action.Err.isSome = true ∧
      s.action.LedgerRecords = action.LedgerRecords ∧
      s.action.TransactionRecords = action.TransactionRecords ∧
      s.action.OperationRecords = action.OperationRecords ∧
      s.action.BlockRecords = action.BlockRecords ∧
      s.action.KafkaReply = action.KafkaReply) ∧
    (action.Err = none → ext.EnsureHistoryFreshness none = none →
      (loadParams ext action).Err = none →
      JSON env ext action =
        Except.ok { action := { loadParams ext action with Err := some Error.BeforeHistory }
                    events := [] }) ∧
    (∀ e, action.Err = some e →
      JSON env ext action = Except.ok { action := action, events := [] }) ∧
    (∀ e, action.Err = none → ext.EnsureHistoryFreshness none = some e →
      JSON env ext action =
        Except.ok { action := { action with Err := some e }, events := [] }) ∧
    (∀ e, action.Err = none → ext.EnsureHistoryFreshness none = none →
      (loadParams ext action).Err = some e →
      JSON env ext action = Except.ok { action := loadParams ext action, events := [] }) := by
  have hJ := JSON_of_start_before_history env ext action hstart
  refine ⟨?_, ?_, ?_, ?_, ?_⟩
  · refine ⟨_, hJ, rfl, ?_⟩
    cases h0 : action.Err with
    | some e =>
      rw [if_pos (by simp [h0])]
      exact ⟨by simp [h0], rfl, rfl, rfl, rfl, rfl⟩
    | none =>
      rw [if_neg (by simp [h0])]
      cases hf : ext.EnsureHistoryFreshness none with
      | some e =>
        rw [if_pos (by simp)]
        exact ⟨rfl, rfl, rfl, rfl, rfl, rfl⟩
      | none =>
        rw [if_neg (by simp)]
        cases hp : (loadParams ext action).Err with
        | some e =>
          rw [if_pos (by simp)]
          exact ⟨by simp [hp], rfl, rfl, rfl, rfl, rfl⟩
        | none =>
          rw [if_neg (by simp)]
          exact ⟨rfl, rfl, rfl, rfl, rfl, rfl⟩
  · intro h0 hf hp
    rw [hJ]
    simp [h0, hf, hp]
  · intro e h0
    rw [hJ]
    simp [h0]
  · intro e h0 hf
    rw [hJ]
    simp [h0, hf]
  · intro e h0 hf hp
    rw [hJ]
    simp [h0, hf, hp]

/-- C6 amended, on the sample request: boundary 100, `ledger_start` 50, no earlier error. -/
theorem C6_before_history_short_circuits_witness :
    (sampleExternals 50 60 "" (none, none)).HistoryElder = 100 ∧
    ((sampleExternals 50 60 "" (none, none)).GetInt32 "ledger_start" none).1 = 50 ∧
    JSON sampleEnv (sampleExternals 50 60 "" (none, none)) freshAction =
      Except.ok
        { action := { freshAction with
            SequenceStart := 50, SequenceEnd := 60, Err := some Error.BeforeHistory }
          events := [] } :=
  ⟨rfl, rfl,
    (C6_before_history_short_circuits sampleEnv (sampleExternals 50 60 "" (none, none))
      freshAction (by decide)).2.1 rfl rfl rfl⟩

/-- C7, on the code: when `client.Do` returns no response and an error, `SendDataToKafka`
panics on the nil response instead of recording the error. -/
theorem C7_post_failure_panics (ext : Externals) (s : Run) (err : Error)
    (hreq : ext.NewRequest (kafkaURL ext.config) = true)
    (hdo : ext.clientDo (kafkaURL ext.config) (ext.Marshal s.action.BlockRecords) =
      (none, some err)) :
    SendDataToKafka ext s = Except.error Panic.nilPointerDereference := by
  simp [SendDataToKafka, hreq, hdo]

/-- C7 on the sample request with an unreachable endpoint. -/
theorem C7_post_failure_panics_witness :
    SendDataToKafka (sampleExternals 7 8 "true" (none, some (Error.other "connection refused")))
      { action := LoadBlockData sampleEnv sampleAction, events := [] } =
      Except.error Panic.nilPointerDereference :=
  C7_post_failure_panics _ _ (Error.other "connection refused") rfl rfl

/-- C8: the outbound URL is `http://{host}/topics/{topic}` when the configured port is 80;
for every other port it is `http://{host}:{digits}/topics/{topic}` where `digits` is the
decimal numeral of the port: a non-empty string of the digits `0` to `9` whose value is the
port, with a leading `0` only for port zero. On the sample host and topic, port 8082 gives
`http://proxy:8082/topics/xlm` and port 80 gives `http://proxy/topics/xlm`. -/
theorem C8_kafkaURL (host topic : String) (port : Nat) :
    kafkaURL { KafkaProxyHost := host, KafkaProxyPort := 80, KafkaTopic := topic } =
      "http://" ++ host ++ "/topics/" ++ topic ∧
    (port ≠ 80 →
      ∃ digits : List Char,
        kafkaURL { KafkaProxyHost := host, KafkaProxyPort := port, KafkaTopic := topic } =
          "http://" ++ host ++ ":" ++ String.mk digits ++ "/topics/" ++ topic ∧
        digits ≠ [] ∧ (∀ c ∈ digits, c.isDigit = true) ∧ digitsValue 0 digits = port ∧
        (digits.head? = some '0' → port = 0)) ∧
    kafkaURL { KafkaProxyHost := "proxy", KafkaProxyPort := 8082, KafkaTopic := "xlm" } =
      "http://proxy:8082/topics/xlm" ∧
    kafkaURL { KafkaProxyHost := "proxy", KafkaProxyPort := 80, KafkaTopic := "xlm" } =
      "http://proxy/topics/xlm" ∧
    kafkaURL { KafkaProxyHost := "proxy", KafkaProxyPort := 0, KafkaTopic := "xlm" } =
      "http://proxy:0/topics/xlm" := by
  refine ⟨by simp [kafkaURL], ?_, by decide, by decide, by decide⟩
  intro h
  obtain ⟨digits, hrender, hne, hdig, hval, hzero⟩ := sprintfU_decimal port
  refine ⟨digits, ?_, hne, hdig, hval, hzero⟩
  simp only [kafkaURL, h, if_false, hrender]

/-- C9: when the `TransactionID` of a loaded operation record `o` is the id of no loaded
transaction record, `LoadBlockData` still yields one document per ledger record and leaves
the error as it was, and the operation assembled from `o` is in the operations of no
transaction of any assembled document. -/
theorem C9_orphan_operation_absent (env : Env) (action : SendAction) (o : OperationRecord)
    (ho : o ∈ action.OperationRecords)
    (horphan : ∀ r ∈ action.TransactionRecords, r.ID ≠ o.TransactionID) :
    (LoadBlockData env action).BlockRecords.Records.toList.length =
      action.LedgerRecords.length ∧
    (LoadBlockData env action).Err = action.Err ∧
    (∃ ops, buildToMap env action.OperationRecords o.TransactionID = some ops ∧
      operationOf env o ∈ ops.toList) ∧
    ∀ d ∈ (LoadBlockData env action).BlockRecords.Records.toList,
      ∀ t ∈ d.Value.Transactions.toList, operationOf env o ∉ t.Operations.toList := by
  refine ⟨?_, rfl, ?_, ?_⟩
  · rw [LoadBlockData_Records]
    simp [Slice.toList]
  · have hne : ¬ (action.OperationRecords.filter
        (fun x => decide (x.TransactionID = o.TransactionID))) = [] := by
      intro hnil
      have hmem : o ∈ action.OperationRecords.filter
          (fun x => decide (x.TransactionID = o.TransactionID)) := by
        simp [List.mem_filter, ho]
      rw [hnil] at hmem
      exact List.not_mem_nil _ hmem
    have hmap : buildToMap env action.OperationRecords o.TransactionID =
        some (Slice.mk ((action.OperationRecords.filter
          (fun x => decide (x.TransactionID = o.TransactionID))).map (operationOf env))) := by
      rw [buildToMap_apply]
      simp only [List.isEmpty_iff, hne, if_false]
    refine ⟨_, hmap, ?_⟩
    simp only [Slice.toList, List.mem_map, List.mem_filter, decide_eq_true_eq]
    exact ⟨o, ⟨ho, rfl⟩, rfl⟩
  · intro d hd t ht hmem
    obtain ⟨r, hr, _, rfl⟩ := mem_Transactions env action d hd t ht
    rw [transactionOf_Operations] at hmem
    simp only [Slice.toList, List.mem_map, List.mem_filter, decide_eq_true_eq] at hmem
    obtain ⟨o2, ⟨_, hid⟩, heq⟩ := hmem
    have h1 : sprintfD o2.TransactionID = sprintfD o.TransactionID :=
      congrArg operation.TransactionID heq
    have h2 : o2.TransactionID = o.TransactionID := sprintfD_injective h1
    exact horphan r hr (by rw [← hid, h2])

/-- C9 on the sample action: operation 4 belongs to transaction 99, which is not loaded. -/
theorem C9_orphan_operation_absent_witness :
    sampleOperation 4 99 1 "GA" ∈ sampleAction.OperationRecords ∧
    (LoadBlockData sampleEnv sampleAction).BlockRecords.Records.toList.length =
      sampleAction.LedgerRecords.length ∧
    (LoadBlockData sampleEnv sampleAction).Err = sampleAction.Err ∧
    (∃ ops, buildToMap sampleEnv sampleAction.OperationRecords
        (sampleOperation 4 99 1 "GA").TransactionID = some ops ∧
      operationOf sampleEnv (sampleOperation 4 99 1 "GA") ∈ ops.toList) ∧
    ∀ d ∈ (LoadBlockData sampleEnv sampleAction).BlockRecords.Records.toList,
      ∀ t ∈ d.Value.Transactions.toList,
        operationOf sampleEnv (sampleOperation 4 99 1 "GA") ∉ t.Operations.toList :=
  ⟨by decide,
    C9_orphan_operation_absent sampleEnv sampleAction (sampleOperation 4 99 1 "GA")
      (by decide) (by decide)⟩

/-- C10: when no ledger record is loaded, `LoadBlockData` leaves `BlockRecords.Records`
equal to the allocated empty slice, which is not `nil`, and leaves the error as it was,
whatever the transaction and operation records are. -/
theorem C10_empty_range (env : Env) (action : SendAction)
    (hempty : action.LedgerRecords = []) :
    (LoadBlockData env action).BlockRecords.Records = Slice.make0 ∧
    (LoadBlockData env action).BlockRecords.Records.isNil = false ∧
    (LoadBlockData env action).BlockRecords.Records.toList = [] ∧
    (LoadBlockData env action).Err = action.Err := by
  have h : (LoadBlockData env action).BlockRecords.Records = Slice.make0 := by
    rw [LoadBlockData_Records, hempty]
    rfl
  exact ⟨h, by rw [h]; rfl, by rw [h]; rfl, rfl⟩

/-- C10 on the sample action with its ledger records removed. -/
theorem C10_empty_range_witness :
    (LoadBlockData sampleEnv { sampleAction with LedgerRecords := [] }).BlockRecords.Records =
      Slice.make0 ∧
    (LoadBlockData sampleEnv
      { sampleAction with LedgerRecords := [] }).BlockRecords.Records.isNil = false ∧
    (LoadBlockData sampleEnv
      { sampleAction with LedgerRecords := [] }).BlockRecords.Records.toList = [] ∧
    (LoadBlockData sampleEnv { sampleAction with LedgerRecords := [] }).Err =
      ({ sampleAction with LedgerRecords := [] } : SendAction).Err :=
  C10_empty_range sampleEnv { sampleAction with LedgerRecords := [] } rfl

/-! ## Further claims on `LoadBlockData` -/

/-- The document at every index is the one built from the ledger record at that index. -/
theorem LoadBlockData_Records_getElem? (env : Env) (action : SendAction) (i : Nat) :
    (LoadBlockData env action).BlockRecords.Records.toList[i]? =
      (action.LedgerRecords[i]?).map (fun l => BlockValue.mk (ledgerOf env
        (buildLtMap env (buildToMap env action.OperationRecords) action.TransactionRecords)
        l)) := by
  rw [LoadBlockData_Records]
  simp only [Slice.toList, List.getElem?_map]

/-- C11: in the document at every index, `successful_transaction_count` is the ledger
record's `SuccessfulTransactionCount` when present and its `TransactionCount` when absent,
`transaction_count` is the record's `TransactionCount`, and `failed_transaction_count` is
the record's `FailedTransactionCount`, absent when absent. -/
theorem C11_transaction_counts (env : Env) (action : SendAction) (i : Nat) :
    ((LoadBlockData env action).BlockRecords.Records.toList[i]?).map
        (fun d => (d.Value.SuccessfulTransactionCount, d.Value.TransactionCount,
          d.Value.FailedTransactionCount)) =
      (action.LedgerRecords[i]?).map
        (fun l => (l.SuccessfulTransactionCount.getD l.TransactionCount, l.TransactionCount,
          l.FailedTransactionCount)) := by
  rw [LoadBlockData_Records_getElem?, Option.map_map]
  congr 1
  funext l
  cases h : l.SuccessfulTransactionCount <;> simp [ledgerOf, h]

/-- C12: a second run of `LoadBlockData` changes nothing, the run does not read the
`BlockRecords` it starts from, and two actions with the same three record collections get
the same `BlockRecords`. -/
theorem C12_idempotent_deterministic (env : Env) (action : SendAction) :
    LoadBlockData env (LoadBlockData env action) = LoadBlockData env action ∧
    (∀ b : BlockData,
      LoadBlockData env { action with BlockRecords := b } = LoadBlockData env action) ∧
    ∀ other : SendAction,
      other.LedgerRecords = action.LedgerRecords →
      other.TransactionRecords = action.TransactionRecords →
      other.OperationRecords = action.OperationRecords →
      (LoadBlockData env other).BlockRecords = (LoadBlockData env action).BlockRecords := by
  refine ⟨rfl, fun _ => rfl, ?_⟩
  intro other hl ht ho
  simp only [LoadBlockData, hl, ht, ho]

/-- C17: in the document at every index, `header_xdr` is the ledger record's header string
when the header is valid and the empty string otherwise; and a record whose header is not
valid gets the empty string whatever string it stores. -/
theorem C17_header_xdr (env : Env) (action : SendAction) :
    (∀ i : Nat,
      ((LoadBlockData env action).BlockRecords.Records.toList[i]?).map
          (fun d => d.Value.HeaderXDR) =
        (action.LedgerRecords[i]?).map
          (fun l => if l.LedgerHeaderXDR.Valid = true then l.LedgerHeaderXDR.String else "")) ∧
    ∀ (ltMap : GoMap Int (Slice transaction)) (l : LedgerRecord) (stored : String),
      (ledgerOf env ltMap
        { l with LedgerHeaderXDR := { Valid := false, String := stored } }).HeaderXDR = "" ∧
      (ledgerOf env ltMap
        { l with LedgerHeaderXDR := { Valid := true, String := stored } }).HeaderXDR =
          stored := by
  refine ⟨?_, ?_⟩
  · intro i
    rw [LoadBlockData_Records_getElem?, Option.map_map]
    rfl
  · intro ltMap l stored
    exact ⟨rfl, rfl⟩

/-- The elements of an allocated slice. -/
theorem Slice.toList_mk {α : Type} (l : List α) : (Slice.mk l).toList = l := rfl

/-- The transaction built from a loaded record `r` is under the document of ledger record
`l` exactly when `r` belongs to the ledger of `l`. -/
theorem transactionOf_mem_ledgerOf (env : Env) (toMap : GoMap Int (Slice operation))
    (ts : List TransactionRecord) (l : LedgerRecord) (r : TransactionRecord) (hr : r ∈ ts) :
    transactionOf env toMap r ∈ (ledgerOf env (buildLtMap env toMap ts) l).Transactions.toList ↔
      r.LedgerSequence = l.Sequence := by
  rw [ledgerOf_Transactions]
  simp only [Slice.toList, List.mem_map, List.mem_filter, decide_eq_true_eq]
  constructor
  · rintro ⟨r2, ⟨_, hseq⟩, heq⟩
    have h : r2.LedgerSequence = r.LedgerSequence := congrArg transaction.Ledger heq
    rw [← h, hseq]
  · intro h
    exact ⟨r, ⟨hr, h⟩, rfl⟩

/-- The operation built from a loaded record `o` is under the transaction built from the
record whose id is the `TransactionID` of `o`. -/
theorem operationOf_mem_transactionOf (env : Env) (os : List OperationRecord)
    (o : OperationRecord) (ho : o ∈ os) (r : TransactionRecord)
    (hor : o.TransactionID = r.ID) :
    operationOf env o ∈ (transactionOf env (buildToMap env os) r).Operations.toList := by
  rw [transactionOf_Operations]
  simp only [Slice.toList, List.mem_map, List.mem_filter, decide_eq_true_eq]
  exact ⟨o, ⟨ho, hor⟩, rfl⟩

/-- Counting the records that satisfy one of two exclusive tests. -/
theorem countP_or_of_disjoint {R : Type} (p q : R → Bool) (rs : List R)
    (hpq : ∀ r ∈ rs, p r = true → q r = false) :
    rs.countP (fun r => p r || q r) = rs.countP p + rs.countP q := by
  induction rs with
  | nil => rfl
  | cons r rs ih =>
    have ih2 := ih (fun x hx => hpq x (List.mem_cons_of_mem _ hx))
    have h := hpq r (List.mem_cons_self _ _)
    cases hp : p r
    · cases hq : q r
      · simp [List.countP_cons, hp, hq, ih2]
      · simp [List.countP_cons, hp, hq, ih2]
        omega
    · have hq : q r = false := h hp
      simp [List.countP_cons, hp, hq, ih2]
      omega

/-- Over pairwise distinct keys, the groups of records by key have as many members in all
as there are records whose key is one of them. -/
theorem sum_group_lengths {R : Type} (key : R → Int) (rs : List R) :
    ∀ ks : List Int, ks.Nodup →
      (ks.map (fun k => (rs.filter (fun r => decide (key r = k))).length)).sum =
        (rs.filter (fun r => decide (key r ∈ ks))).length := by
  intro ks
  induction ks with
  | nil => intro _; simp
  | cons k ks ih =>
    intro hnd
    have hk : k ∉ ks := (List.nodup_cons.mp hnd).1
    have ih2 := ih (List.nodup_cons.mp hnd).2
    rw [List.map_cons, List.sum_cons, ih2, ← List.countP_eq_length_filter,
      ← List.countP_eq_length_filter, ← List.countP_eq_length_filter,
      ← countP_or_of_disjoint]
    · apply List.countP_congr
      intro r _
      simp [List.mem_cons]
    · intro r _ hp
      have hrk : key r = k := of_decide_eq_true hp
      simp [hrk, hk]

/-- C16: when the loaded ledger records have pairwise distinct sequences, every loaded
transaction record is under exactly one assembled document if its `LedgerSequence` is the
sequence of a loaded ledger record and under none otherwise, and the documents' transaction
lists have as many entries in all as there are loaded transaction records whose
`LedgerSequence` is a loaded sequence. -/
theorem C16_no_cross_ledger_sharing (env : Env) (action : SendAction)
    (hdistinct : (action.LedgerRecords.map (fun l => l.Sequence)).Nodup) :
    (∀ r ∈ action.TransactionRecords,
      ((LoadBlockData env action).BlockRecords.Records.toList.filter
        (fun d => decide (transactionOf env (buildToMap env action.OperationRecords) r ∈
          d.Value.Transactions.toList))).length =
      if r.LedgerSequence ∈ action.LedgerRecords.map (fun l => l.Sequence) then 1 else 0) ∧
    ((LoadBlockData env action).BlockRecords.Records.toList.map
      (fun d => d.Value.Transactions.toList.length)).sum =
      (action.TransactionRecords.filter
        (fun t => decide (t.LedgerSequence ∈
          action.LedgerRecords.map (fun l => l.Sequence)))).length := by
  refine ⟨?_, ?_⟩
  · intro r hr
    rw [LoadBlockData_Records, Slice.toList_mk, ← List.countP_eq_length_filter,
      List.countP_map]
    have hcount : List.countP ((fun d : BlockValue =>
          decide (transactionOf env (buildToMap env action.OperationRecords) r ∈
            d.Value.Transactions.toList)) ∘
          fun l => BlockValue.mk (ledgerOf env (buildLtMap env
            (buildToMap env action.OperationRecords) action.TransactionRecords) l))
        action.LedgerRecords =
        List.count r.LedgerSequence (action.LedgerRecords.map (fun l => l.Sequence)) := by
      rw [List.count, List.countP_map]
      apply List.countP_congr
      intro l _
      simp only [Function.comp_apply, decide_eq_true_eq, beq_iff_eq]
      rw [transactionOf_mem_ledgerOf env _ _ l r hr]
      exact eq_comm
    rw [hcount]
    by_cases hmem : r.LedgerSequence ∈ action.LedgerRecords.map (fun l => l.Sequence)
    · rw [if_pos hmem, List.count_eq_one_of_mem hdistinct hmem]
    · rw [if_neg hmem, List.count_eq_zero_of_not_mem hmem]
  · rw [LoadBlockData_Records]
    simp only [Slice.toList, List.map_map]
    rw [← sum_group_lengths (fun t : TransactionRecord => t.LedgerSequence)
      action.TransactionRecords _ hdistinct, List.map_map]
    congr 1
    apply List.map_congr_left
    intro l _
    simp only [Function.comp_apply, ledgerOf_Transactions, Slice.toList, List.length_map]

/-- C16 on the sample action: ledgers 7 and 8 hold three transactions in all, and
transaction 71 is under one document. -/
theorem C16_no_cross_ledger_sharing_witness :
    (∀ r ∈ sampleAction.TransactionRecords,
      ((LoadBlockData sampleEnv sampleAction).BlockRecords.Records.toList.filter
        (fun d => decide (transactionOf sampleEnv
          (buildToMap sampleEnv sampleAction.OperationRecords) r ∈
          d.Value.Transactions.toList))).length =
      if r.LedgerSequence ∈ sampleAction.LedgerRecords.map (fun l => l.Sequence) then 1
      else 0) ∧
    ((LoadBlockData sampleEnv sampleAction).BlockRecords.Records.toList.map
      (fun d => d.Value.Transactions.toList.length)).sum =
      (sampleAction.TransactionRecords.filter
        (fun t => decide (t.LedgerSequence ∈
          sampleAction.LedgerRecords.map (fun l => l.Sequence)))).length :=
  C16_no_cross_ledger_sharing sampleEnv sampleAction (by decide)

/-- C18: every transaction under an assembled document `d` has `ledger` equal to the
sequence of `d`, and its `id` and the `transaction_id` of every operation under it are the
decimal rendering of one and the same identifier. -/
theorem C18_parent_key_consistency (env : Env) (action : SendAction) (d : BlockValue)
    (hd : d ∈ (LoadBlockData env action).BlockRecords.Records.toList)
    (t : transaction) (ht : t ∈ d.Value.Transactions.toList) :
    t.Ledger = d.Value.Sequence ∧
    (∀ o ∈ t.Operations.toList, o.TransactionID = t.ID) ∧
    ∃ id : Int, t.ID = sprintfD id ∧ ∀ o ∈ t.Operations.toList, o.TransactionID = sprintfD id := by
  obtain ⟨r, _, hseq, rfl⟩ := mem_Transactions env action d hd t ht
  have hops : ∀ o ∈ (transactionOf env (buildToMap env action.OperationRecords)
      r).Operations.toList, o.TransactionID = sprintfD r.ID := by
    intro o ho
    rw [transactionOf_Operations] at ho
    simp only [Slice.toList, List.mem_map, List.mem_filter, decide_eq_true_eq] at ho
    obtain ⟨o2, ⟨_, hid⟩, rfl⟩ := ho
    show sprintfD o2.TransactionID = sprintfD r.ID
    rw [hid]
  exact ⟨hseq, hops, r.ID, rfl, hops⟩

/-- C18 on the sample action: transaction 70 under the document of ledger 7. -/
theorem C18_parent_key_consistency_witness :
    (transactionOf sampleEnv (buildToMap sampleEnv sampleAction.OperationRecords)
      (sampleTransaction 70 7 "GA")).Ledger =
      (BlockValue.mk (ledgerOf sampleEnv (buildLtMap sampleEnv
        (buildToMap sampleEnv sampleAction.OperationRecords) sampleAction.TransactionRecords)
        (sampleLedger 700 7 "h7"))).Value.Sequence ∧
    (∀ o ∈ (transactionOf sampleEnv (buildToMap sampleEnv sampleAction.OperationRecords)
      (sampleTransaction 70 7 "GA")).Operations.toList,
      o.TransactionID = (transactionOf sampleEnv
        (buildToMap sampleEnv sampleAction.OperationRecords)
        (sampleTransaction 70 7 "GA")).ID) ∧
    ∃ id : Int,
      (transactionOf sampleEnv (buildToMap sampleEnv sampleAction.OperationRecords)
        (sampleTransaction 70 7 "GA")).ID = sprintfD id ∧
      ∀ o ∈ (transactionOf sampleEnv (buildToMap sampleEnv sampleAction.OperationRecords)
        (sampleTransaction 70 7 "GA")).Operations.toList, o.TransactionID = sprintfD id :=
  C18_parent_key_consistency sampleEnv sampleAction
    (BlockValue.mk (ledgerOf sampleEnv (buildLtMap sampleEnv
      (buildToMap sampleEnv sampleAction.OperationRecords) sampleAction.TransactionRecords)
      (sampleLedger 700 7 "h7")))
    (by decide)
    (transactionOf sampleEnv (buildToMap sampleEnv sampleAction.OperationRecords)
      (sampleTransaction 70 7 "GA"))
    (by decide)

/-- C19: a loaded operation record `o` whose owning transaction record `r` is loaded is
assembled and attached whatever its type code is: the transaction built from `r` is under
every document of its ledger, it carries one operation per operation record of `r`, the one
built from `o` among them; the type of that operation is the empty string when the table has
no entry for the code of `o`, and the entry's name when it has one. -/
theorem C19_unknown_operation_type (env : Env) (action : SendAction)
    (o : OperationRecord) (ho : o ∈ action.OperationRecords)
    (r : TransactionRecord) (hr : r ∈ action.TransactionRecords)
    (hor : o.TransactionID = r.ID) :
    (LoadBlockData env action).BlockRecords.Records.toList.length =
      action.LedgerRecords.length ∧
    (∀ d ∈ (LoadBlockData env action).BlockRecords.Records.toList,
      d.Value.Sequence = r.LedgerSequence →
      transactionOf env (buildToMap env action.OperationRecords) r ∈
        d.Value.Transactions.toList) ∧
    operationOf env o ∈
      (transactionOf env (buildToMap env action.OperationRecords) r).Operations.toList ∧
    (transactionOf env (buildToMap env action.OperationRecords) r).Operations.toList.length =
      (action.OperationRecords.filter (fun x => decide (x.TransactionID = r.ID))).length ∧
    (env.TypeNames o.Typ = none → (operationOf env o).Typ = "") ∧
    ∀ name : String, env.TypeNames o.Typ = some name → (operationOf env o).Typ = name := by
  refine ⟨?_, ?_, operationOf_mem_transactionOf env _ o ho r hor, ?_, ?_, ?_⟩
  · rw [LoadBlockData_Records]
    simp [Slice.toList]
  · intro d hd hseq
    rw [LoadBlockData_Records] at hd
    simp only [Slice.toList, List.mem_map] at hd
    obtain ⟨l, _, rfl⟩ := hd
    exact (transactionOf_mem_ledgerOf env _ _ l r hr).mpr hseq.symm
  · rw [transactionOf_Operations]
    simp only [Slice.toList, List.length_map]
  · intro h
    simp only [operationOf, GoMap.index, h, Option.getD_none]
  · intro name h
    simp only [operationOf, GoMap.index, h, Option.getD_some]

/-- C19 on the sample action: operation 3 of transaction 70 has type code 5, which the
sample table does not name. -/
theorem C19_unknown_operation_type_witness :
    sampleEnv.TypeNames (sampleOperation 3 70 5 "GX").Typ = none ∧
    (operationOf sampleEnv (sampleOperation 3 70 5 "GX")).Typ = "" ∧
    operationOf sampleEnv (sampleOperation 3 70 5 "GX") ∈
      (transactionOf sampleEnv (buildToMap sampleEnv sampleAction.OperationRecords)
        (sampleTransaction 70 7 "GA")).Operations.toList :=
  ⟨by decide,
    (C19_unknown_operation_type sampleEnv sampleAction (sampleOperation 3 70 5 "GX")
      (by decide) (sampleTransaction 70 7 "GA") (by decide) (by decide)).2.2.2.2.1
      (by decide),
    (C19_unknown_operation_type sampleEnv sampleAction (sampleOperation 3 70 5 "GX")
      (by decide) (sampleTransaction 70 7 "GA") (by decide) (by decide)).2.2.1⟩

/-! ## Claims on publishing -/

/-- The closing step on the direct path: the assembled records are rendered, and nothing is
posted. -/
theorem emit_direct (ext : Externals) (s : Run) (hflag : s.action.SendKafka ≠ "true") :
    emit ext s =
      Except.ok { s with events := s.events ++ [Event.renderBlockRecords s.action.BlockRecords] } := by
  simp only [emit, hflag, if_false]

/-- The closing step on the publish path, when `SendDataToKafka` returns: the reply record
is rendered after it, whether or not it has set an error. -/
theorem emit_publish (ext : Externals) (s s1 : Run) (hflag : s.action.SendKafka = "true")
    (hsend : SendDataToKafka ext s = Except.ok s1) :
    emit ext s =
      Except.ok { s1 with events := s1.events ++ [Event.renderKafkaReply s1.action.KafkaReply] } := by
  simp only [emit, hflag, if_true, hsend]

/-- C13: when the request is built, `client.Do` returns a response and no error, and the
body of the response is read without error, `SendDataToKafka` returns with
`KafkaReply.Message` equal to `success`, the error as it was, one POST and one log entry
added to the trace; the reply then encodes to the single member `message: success`, and on
the publish path the closing step renders that reply. -/
theorem C13_publish_success (ext : Externals) (s : Run) (resp : Response)
    (hreq : ext.NewRequest (kafkaURL ext.config) = true)
    (hdo : ext.clientDo (kafkaURL ext.config) (ext.Marshal s.action.BlockRecords) =
      (some resp, none))
    (hread : resp.readAll = none) :
    SendDataToKafka ext s =
      Except.ok
        { action := { s.action with KafkaReply := { Message := "success" } }
          events := s.events ++
            [Event.post (kafkaURL ext.config) (ext.Marshal s.action.BlockRecords),
             Event.logInfo "Horizon send data into kafka successfully! "] } ∧
    (∀ s1, SendDataToKafka ext s = Except.ok s1 →
      s1.action.KafkaReply.Message = "success" ∧ s1.action.Err = s.action.Err ∧
      s1.action.KafkaReply.members = [("message", "success")]) ∧
    (s.action.SendKafka = "true" →
      emit ext s =
        Except.ok
          { action := { s.action with KafkaReply := { Message := "success" } }
            events := s.events ++
              [Event.post (kafkaURL ext.config) (ext.Marshal s.action.BlockRecords),
               Event.logInfo "Horizon send data into kafka successfully! ",
               Event.renderKafkaReply { Message := "success" }] }) := by
  have hsend : SendDataToKafka ext s =
      Except.ok
        { action := { s.action with KafkaReply := { Message := "success" } }
          events := s.events ++
            [Event.post (kafkaURL ext.config) (ext.Marshal s.action.BlockRecords),
             Event.logInfo "Horizon send data into kafka successfully! "] } := by
    simp [SendDataToKafka, hreq, hdo, hread]
  refine ⟨hsend, ?_, ?_⟩
  · intro s1 h1
    rw [hsend] at h1
    cases h1
    exact ⟨rfl, rfl, rfl⟩
  · intro hflag
    rw [emit_publish ext s _ hflag hsend]
    simp

/-- C13 on the sample request: the proxy answers with status 200 and a readable body. -/
theorem C13_publish_success_witness :
    ∃ s1, SendDataToKafka
        (sampleExternals 107 108 "true" (some { StatusCode := 200, readAll := none }, none))
        { action := LoadBlockData sampleEnv sampleAction, events := [] } = Except.ok s1 ∧
      s1.action.KafkaReply.Message = "success" ∧ s1.action.Err = none ∧
      s1.action.KafkaReply.members = [("message", "success")] :=
  ⟨_, (C13_publish_success
      (sampleExternals 107 108 "true" (some { StatusCode := 200, readAll := none }, none))
      { action := LoadBlockData sampleEnv sampleAction, events := [] }
      { StatusCode := 200, readAll := none } rfl rfl rfl).1, rfl, rfl, rfl⟩

/-- C14, on the code: on the publish path, when `client.Do` returns no response and an
error, the closing step panics inside `SendDataToKafka` and renders no body. -/
theorem C14_failed_post_renders_no_body (ext : Externals) (s : Run) (err : Error)
    (hflag : s.action.SendKafka = "true")
    (hreq : ext.NewRequest (kafkaURL ext.config) = true)
    (hdo : ext.clientDo (kafkaURL ext.config) (ext.Marshal s.action.BlockRecords) =
      (none, some err)) :
    emit ext s = Except.error Panic.nilPointerDereference := by
  simp [emit, hflag, SendDataToKafka, hreq, hdo]

/-- C14 on the sample request: `send_kafka` is `true`, the range is within history, all
loads succeed and the proxy is unreachable; the closing step, and the whole of `JSON`,
end in the panic. -/
theorem C14_failed_post_renders_no_body_witness :
    emit (sampleExternals 107 108 "true" (none, some (Error.other "connection refused")))
        { action := LoadBlockData sampleEnv { sampleAction with SendKafka := "true" }
          events := [] } =
      Except.error Panic.nilPointerDereference ∧
    JSON sampleEnv
        (sampleExternals 107 108 "true" (none, some (Error.other "connection refused")))
        freshAction =
      Except.error Panic.nilPointerDereference :=
  ⟨C14_failed_post_renders_no_body _ _ (Error.other "connection refused") rfl rfl rfl, rfl⟩

/-- C15, on the code: on the publish path, when the response body cannot be read,
`SendDataToKafka` records the error and the closing step still renders the reply record,
whose message was never set. -/
theorem C15_failed_publish_renders_reply (ext : Externals) (s : Run) (resp : Response)
    (err : Error)
    (hflag : s.action.SendKafka = "true")
    (hreq : ext.NewRequest (kafkaURL ext.config) = true)
    (hdo : ext.clientDo (kafkaURL ext.config) (ext.Marshal s.action.BlockRecords) =
      (some resp, none))
    (hread : resp.readAll = some err) :
    emit ext s =
      Except.ok
        { action := { s.action with Err := some err }
          events := s.events ++
            [Event.post (kafkaURL ext.config) (ext.Marshal s.action.BlockRecords),
             Event.renderKafkaReply s.action.KafkaReply] } := by
  have hsend : SendDataToKafka ext s =
      Except.ok
        { action := { s.action with Err := some err }
          events := s.events ++
            [Event.post (kafkaURL ext.config) (ext.Marshal s.action.BlockRecords)] } := by
    simp [SendDataToKafka, hreq, hdo, hread]
  rw [emit_publish ext s _ hflag hsend]
  simp

/-- C15 on the sample request: the proxy answers, reading its body fails, and `JSON` ends
with that error after rendering the reply with the empty message. -/
theorem C15_failed_publish_renders_reply_witness :
    emit (sampleExternals 107 108 "true"
          (some { StatusCode := 200, readAll := some (Error.other "unexpected EOF") }, none))
        { action := { freshAction with SendKafka := "true" }, events := [] } =
      Except.ok
        { action := { freshAction with
            SendKafka := "true", Err := some (Error.other "unexpected EOF") }
          events := [Event.post "http://proxy:8082/topics/xlm" "0",
            Event.renderKafkaReply { Message := "" }] } ∧
    (JSON sampleEnv (sampleExternals 107 108 "true"
          (some { StatusCode := 200, readAll := some (Error.other "unexpected EOF") }, none))
        freshAction).toOption.map (fun s => (s.action.Err, s.events.getLast?)) =
      some (some (Error.other "unexpected EOF"),
        some (Event.renderKafkaReply { Message := "" })) :=
  ⟨C15_failed_publish_renders_reply _ _ _ (Error.other "unexpected EOF") rfl rfl rfl rfl,
    by decide⟩

end Horizon
